import Mathlib

/-!
Verification development for the rpg-character-manager repository.

The first part embeds the `Character` model of `src/models.py`, in
particular `Character.calculate_derived_values` (lines 140-160).  Nullable
integer columns are modelled as `Option Int`; the Python `x or 1` idiom
(which replaces `None` and `0`, but nothing else, by `1`) is `pyOr1`.

The second part embeds the chat-message store of `src/models.py`
(`ChatMessage`) together with the send handlers of `src/app.py`
(`api_send_message`, lines 552-600, and `api_send_dice_roll`,
lines 602-680), including the 200-message retention sweep that both
handlers perform after inserting the new message.
-/

/-- Python `v or 1` on a nullable integer column: `None` and `0` are falsy
and give `1`; every other value (negative values included) is kept. -/
def pyOr1 (v : Option Int) : Int :=
  match v with
  | none => 1
  | some x => if x = 0 then 1 else x

/-- The `characters` table row (src/models.py lines 74-100).  Nullable
integer columns are `Option Int`; JSON text columns are `String`;
timestamps are plain `Nat` values. -/
structure Character where
  id : Nat
  user_id : Nat
  name : String
  staerke : Option Int
  geschicklichkeit : Option Int
  wahrnehmung : Option Int
  willenskraft : Option Int
  leben : Option Int
  stress : Option Int
  aktuelles_leben : Option Int
  aktueller_stress : Option Int
  zustaende : String
  effekte : String
  image_data : Option (List Nat)
  image_filename : Option String
  created_at : Nat
  updated_at : Nat
deriving DecidableEq

/-- The stress maximum of src/models.py line 156: `willenskraft * 3`,
computed from the willpower value after the `or 1` replacement. -/
def maxStressOf (c : Character) : Int := pyOr1 c.willenskraft * 3

/-- `Character.calculate_derived_values` (src/models.py lines 140-160). -/
def calculate_derived_values (c : Character) : Character :=
  let staerke := pyOr1 c.staerke
  let geschicklichkeit := pyOr1 c.geschicklichkeit
  let wahrnehmung := pyOr1 c.wahrnehmung
  let willenskraft := pyOr1 c.willenskraft
  let leben := (staerke + willenskraft) * 2 + 10
  let aktuelles_leben :=
    match c.aktuelles_leben with
    | none => leben
    | some v => if v > leben then leben else v
  let max_stress := maxStressOf c
  let aktueller_stress :=
    match c.aktueller_stress with
    | none => 0
    | some v => if v > max_stress then max_stress else v
  { c with
    staerke := some staerke
    geschicklichkeit := some geschicklichkeit
    wahrnehmung := some wahrnehmung
    willenskraft := some willenskraft
    leben := some leben
    aktuelles_leben := some aktuelles_leben
    aktueller_stress := some aktueller_stress }

/-- A baseline character row used to build concrete test inputs. -/
def baseChar : Character where
  id := 0
  user_id := 0
  name := "X"
  staerke := some 1
  geschicklichkeit := some 1
  wahrnehmung := some 1
  willenskraft := some 1
  leben := none
  stress := none
  aktuelles_leben := none
  aktueller_stress := none
  zustaende := "[]"
  effekte := "[]"
  image_data := none
  image_filename := none
  created_at := 0
  updated_at := 0

/-- A `chat_messages` row (src/models.py lines 280-289).  `timestamp` is a
`Nat` (the `datetime.utcnow` default, which is non-decreasing across
inserts); `message_data` is the nullable JSON text column. -/
structure Msg where
  id : Nat
  room_id : Nat
  user_id : Nat
  message : String
  timestamp : Nat
  message_type : String
  message_data : Option String
deriving DecidableEq

/-- The message table: rows in insertion order, plus the next value of the
auto-increment primary key. -/
structure Store where
  msgs : List Msg
  nextId : Nat
deriving DecidableEq

/-- `ChatMessage.query.filter_by(room_id=room_id)`: the messages of one
room, in insertion order. -/
def roomMsgs (s : Store) (r : Nat) : List Msg :=
  s.msgs.filter (fun m => m.room_id == r)

/-- The `ORDER BY timestamp ASC` key.  SQL leaves the order of equal
timestamps open; the model resolves ties by the primary key, i.e.
insertion order. -/
def msgLE (a b : Msg) : Prop :=
  a.timestamp < b.timestamp ∨ (a.timestamp = b.timestamp ∧ a.id ≤ b.id)

instance msgLE.dec : DecidableRel msgLE := fun a b => by
  unfold msgLE; exact inferInstance

instance msgLE.total : IsTotal Msg msgLE :=
  ⟨by intro a b; unfold msgLE; omega⟩

instance msgLE.trans : IsTrans Msg msgLE :=
  ⟨by intro a b c hab hbc; unfold msgLE at hab hbc ⊢; omega⟩

/-- `order_by(ChatMessage.timestamp.asc())` over the messages of a room. -/
def sortByTs (l : List Msg) : List Msg :=
  List.insertionSort msgLE l

/-- The retention sweep that each send handler runs after adding the new
message (src/app.py lines 582-590, repeated at 649-656 and 714-721): if
the room now holds more than 200 messages, the `message_count - 200`
oldest-by-timestamp messages of the room are deleted. -/
def evictOld (s : Store) (r : Nat) : Store :=
  let message_count := (roomMsgs s r).length
  if 200 < message_count then
    let old_messages := (sortByTs (roomMsgs s r)).take (message_count - 200)
    let oldIds := old_messages.map Msg.id
    { s with msgs := s.msgs.filter (fun m => decide (m.id ∉ oldIds)) }
  else s

/-- The `ChatMessage(...)` constructor call of a send handler: a fresh
primary key, the given room, author, text, `utcnow` timestamp, type and
data. -/
def newMsg (s : Store) (r u : Nat) (text : String) (t : Nat)
    (mtype : String) (mdata : Option String) : Msg :=
  ⟨s.nextId, r, u, text, t, mtype, mdata⟩

/-- `db.session.add(message)` followed by the autoflush that the
subsequent count query triggers: the new row is appended and the next
primary key advances. -/
def addMsg (s : Store) (m : Msg) : Store :=
  ⟨s.msgs ++ [m], s.nextId + 1⟩

/-- The shared insert-then-sweep path of `api_send_message`,
`api_send_dice_roll` and `api_share_character`: add the new message, then
run the retention sweep on its room. -/
def sendMessageCore (s : Store) (r u : Nat) (text : String) (t : Nat)
    (mtype : String) (mdata : Option String) : Store :=
  evictOld (addMsg s (newMsg s r u text t mtype mdata)) r

/-- Outcome of a send handler: the resulting store and whether the
request succeeded (a failed request leaves the store unchanged). -/
structure SendResult where
  store : Store
  success : Bool
deriving DecidableEq

/-- Python `str.strip()`: drop whitespace code points from both ends,
modelled on the code-point list of the string. -/
def pyStrip (s : String) : String :=
  ⟨((s.data.dropWhile Char.isWhitespace).reverse.dropWhile
      Char.isWhitespace).reverse⟩

/-- `api_send_message` (src/app.py lines 552-600).  `roomOk` is the
outcome of the room lookup, `accessOk` of the membership check; the text
is stripped, rejected when empty or longer than 3000 characters, and
otherwise stored as a `text` message followed by the retention sweep. -/
def api_send_message (roomOk accessOk : Bool) (s : Store) (room_id user_id : Nat)
    (rawText : String) (t : Nat) : SendResult :=
  if !roomOk then ⟨s, false⟩
  else if !accessOk then ⟨s, false⟩
  else
    let message_text := pyStrip rawText
    if message_text.data.isEmpty then ⟨s, false⟩
    else if 3000 < message_text.data.length then ⟨s, false⟩
    else ⟨sendMessageCore s room_id user_id message_text t "text" none, true⟩

/-- The dice announcement text built by `api_send_dice_roll`
(src/app.py lines 637-638). -/
def diceText (username character_name attrName : String)
    (roll_value modifier total : Int) : String :=
  username ++ ":\nWürfelt für \"" ++ character_name ++ "\" " ++ attrName ++
    ": W20=" ++ toString roll_value ++ "+" ++ toString modifier ++ "=" ++
    toString total

/-- `api_send_dice_roll` (src/app.py lines 602-680): after the same room
and access checks, the stripped character name and attribute must be
non-empty; the formatted announcement is stored as a `dice` message
followed by the same retention sweep. -/
def api_send_dice_roll (roomOk accessOk : Bool) (s : Store) (room_id user_id : Nat)
    (username character_name attrName : String)
    (roll_value modifier total : Int) (t : Nat) : SendResult :=
  if !roomOk then ⟨s, false⟩
  else if !accessOk then ⟨s, false⟩
  else
    let cname := pyStrip character_name
    let aname := pyStrip attrName
    if cname.data.isEmpty || aname.data.isEmpty then ⟨s, false⟩
    else
      ⟨sendMessageCore s room_id user_id
        (diceText username cname aname roll_value modifier total) t "dice" none,
        true⟩

/-- The retention sweep with an explicit failure model: `df i` means the
store cannot delete message `i`.  If any selected old message cannot be
deleted, the sweep raises instead of producing a store. -/
def evictOldTry (df : Nat → Bool) (s : Store) (r : Nat) : Option Store :=
  let message_count := (roomMsgs s r).length
  if 200 < message_count then
    let old_messages := (sortByTs (roomMsgs s r)).take (message_count - 200)
    if old_messages.any (fun m => df m.id) then none
    else
      let oldIds := old_messages.map Msg.id
      some { s with msgs := s.msgs.filter (fun m => decide (m.id ∉ oldIds)) }
  else some s

/-- `api_send_message` with the failure model: insert and sweep run in one
transaction inside one `try` block, so a sweep failure reaches the
`except` handler, which calls `db.session.rollback()` (discarding the
uncommitted insert) and returns an error. -/
def api_send_message_try (df : Nat → Bool) (roomOk accessOk : Bool) (s : Store)
    (room_id user_id : Nat) (rawText : String) (t : Nat) : SendResult :=
  if !roomOk then ⟨s, false⟩
  else if !accessOk then ⟨s, false⟩
  else
    let message_text := pyStrip rawText
    if message_text.data.isEmpty then ⟨s, false⟩
    else if 3000 < message_text.data.length then ⟨s, false⟩
    else
      match evictOldTry df
          (addMsg s (newMsg s room_id user_id message_text t "text" none))
          room_id with
      | some s2 => ⟨s2, true⟩
      | none => ⟨s, false⟩

/-- Well-formedness of the message table: every primary key is below the
auto-increment counter, and primary keys are unique. -/
def WF (s : Store) : Prop :=
  (∀ m ∈ s.msgs, m.id < s.nextId) ∧ (s.msgs.map Msg.id).Nodup

/-- The message produced by the `i`-th insert (0-based) of a sequential
send workload with texts `txt` and timestamps `ts` into room `r`. -/
def seqMsg (r u : Nat) (txt : Nat → String) (ts : Nat → Nat) (i : Nat) : Msg :=
  ⟨i, r, u, txt i, ts i, "text", none⟩

/-- `n` sequential successful message inserts into room `r` of an
initially empty store, each through the insert-then-sweep path. -/
def insertSeqG (r u : Nat) (txt : Nat → String) (ts : Nat → Nat) : Nat → Store
  | 0 => ⟨[], 0⟩
  | n + 1 => sendMessageCore (insertSeqG r u txt ts n) r u (txt n) (ts n) "text" none

/-- A room already holding 200 messages, used as concrete input for the
retention-failure scenarios. -/
def store200 : Store :=
  ⟨(List.range 200).map (fun i => ⟨i, 1, 1, "m", i, "text", none⟩), 200⟩

-- Helper lemmas about pyOr1

theorem pyOr1_ne_zero (v : Option Int) : pyOr1 v ≠ 0 := by
  unfold pyOr1
  cases v with
  | none => simp
  | some x =>
    by_cases h : x = 0 <;> simp [h]

theorem pyOr1_pyOr1 (v : Option Int) : pyOr1 (some (pyOr1 v)) = pyOr1 v := by
  have h := pyOr1_ne_zero v
  unfold pyOr1
  simp [pyOr1] at h ⊢
  intro hc
  exact absurd hc h

theorem pyOr1_of_nonneg (x : Int) (hx : 0 ≤ x) : pyOr1 (some x) = max 1 x := by
  unfold pyOr1
  by_cases h : x = 0
  · subst h; simp
  · simp only [if_neg h]
    omega

theorem pyOr1_one_le (v : Option Int) (h : ∀ x, v = some x → 0 ≤ x) :
    1 ≤ pyOr1 v := by
  cases v with
  | none => simp [pyOr1]
  | some x =>
    have hx := h x rfl
    rw [pyOr1_of_nonneg x hx]
    omega

/-- C1: for a character whose four stored base attributes are the
non-negative integers `s, d, p, w`, `calculate_derived_values` produces
`leben = (max 1 s + max 1 w) * 2 + 10`, and the stress maximum of line 156
is `max 1 w * 3`. -/
theorem c1_derived_formulas (c : Character) (s d p w : Int)
    (hs : c.staerke = some s) (hd : c.geschicklichkeit = some d)
    (hp : c.wahrnehmung = some p) (hw : c.willenskraft = some w)
    (hs0 : 0 ≤ s) (hd0 : 0 ≤ d) (hp0 : 0 ≤ p) (hw0 : 0 ≤ w) :
    (calculate_derived_values c).leben = some ((max 1 s + max 1 w) * 2 + 10) ∧
    maxStressOf c = max 1 w * 3 := by
  constructor
  · simp [calculate_derived_values, hs, hw, pyOr1_of_nonneg s hs0,
      pyOr1_of_nonneg w hw0]
  · simp [maxStressOf, hw, pyOr1_of_nonneg w hw0]

/-- C1 witness: strength 3, willpower 2 gives maxHealth 20 and stress
maximum 6. -/
theorem c1_derived_formulas_witness :
    (calculate_derived_values
      { baseChar with staerke := some 3, willenskraft := some 2 }).leben =
        some 20 ∧
    maxStressOf { baseChar with staerke := some 3, willenskraft := some 2 } = 6 := by
  have h := c1_derived_formulas
    { baseChar with staerke := some 3, willenskraft := some 2 }
    3 1 1 2 rfl rfl rfl rfl (by decide) (by decide) (by decide) (by decide)
  exact ⟨by rw [h.1]; decide, by rw [h.2]; decide⟩

/-- C3 counterexample: `calculate_derived_values` is not idempotent.  With
willpower `-2` (kept by the `or 1` idiom, which only replaces `None` and
`0`) and a null current stress, the first call sets current stress to `0`
while the stress maximum is `-6`; a second call then clamps `0` down to
`-6`, so calling twice differs from calling once. -/
theorem c3_not_idempotent :
    calculate_derived_values (calculate_derived_values
      { baseChar with willenskraft := some (-2) }) ≠
      calculate_derived_values { baseChar with willenskraft := some (-2) } := by
  decide

/-- C3 (amended): `calculate_derived_values` is idempotent for every
character whose current stress is set, or whose stored willpower is null,
zero, or positive (so that the stress maximum is non-negative); only the
combination of a null current stress with a negative stored willpower
breaks idempotence. -/
theorem c3_idempotent_amended (c : Character)
    (h : c.aktueller_stress ≠ none ∨ 0 ≤ pyOr1 c.willenskraft) :
    calculate_derived_values (calculate_derived_values c) =
      calculate_derived_values c := by
  obtain ⟨cid, uid, nm, st, ge, wa, wi, le, str, al, as, zu, ef, imd, imf, ca, ua⟩ := c
  simp only [ne_eq] at h
  rcases al with _ | v <;> rcases as with _ | w <;>
    simp only [calculate_derived_values, maxStressOf, pyOr1_pyOr1,
      Character.mk.injEq, Option.some.injEq, true_and, and_true] <;>
    first
      | (have hw : (0 : Int) ≤ pyOr1 wi := by
           rcases h with h | h
           · exact absurd rfl h
           · exact h
         constructor <;> split_ifs <;> omega)
      | (constructor <;> split_ifs <;> omega)

/-- C3 amended witness: a concrete character with non-negative willpower
on which the amended idempotence theorem applies. -/
theorem c3_idempotent_amended_witness :
    (0 : Int) ≤ pyOr1 baseChar.willenskraft ∧
    calculate_derived_values (calculate_derived_values baseChar) =
      calculate_derived_values baseChar :=
  ⟨by decide, c3_idempotent_amended baseChar (Or.inr (by decide))⟩

/-- C4: current health is only clamped down or initialized.  If current
health `H0` is set (and did not exceed the previous maximum `L0`) and the
recomputed maximum is `L1`, then `L1 < H0` forces current health to `L1`,
while `H0 < L1` leaves it at `H0`; a null current health is initialized to
the recomputed maximum. -/
theorem c4_health_clamp (c : Character) :
    (∀ H0 L0 L1 : Int, c.aktuelles_leben = some H0 → c.leben = some L0 →
      H0 ≤ L0 → (calculate_derived_values c).leben = some L1 →
      (L1 < H0 → (calculate_derived_values c).aktuelles_leben = some L1) ∧
      (H0 < L1 → (calculate_derived_values c).aktuelles_leben = some H0)) ∧
    (c.aktuelles_leben = none →
      (calculate_derived_values c).aktuelles_leben =
        (calculate_derived_values c).leben) := by
  constructor
  · intro H0 L0 L1 hH hL hle hL1
    simp only [calculate_derived_values, Option.some.injEq] at hL1
    constructor <;> intro hlt <;>
      simp only [calculate_derived_values, hH, Option.some.injEq] <;>
      split_ifs <;> omega
  · intro h
    simp [calculate_derived_values, h]

/-- C4 witness: current health 18 with old maximum 20; the recomputed
maximum is 14, so current health is clamped down to 14. -/
theorem c4_health_clamp_witness :
    (calculate_derived_values
      { baseChar with leben := some 20, aktuelles_leben := some 18 }).aktuelles_leben =
      some 14 :=
  ((c4_health_clamp
      { baseChar with leben := some 20, aktuelles_leben := some 18 }).1
    18 20 14 rfl rfl (by decide) (by decide)).1 (by decide)

/-- C6 counterexample: the first step of `calculate_derived_values` is not
a `max 1 _` clamp.  A stored strength of `-5` is truthy in Python, so
`self.staerke or 1` keeps it: after the call the strength is still `-5`,
which is below 1. -/
theorem c6_negative_not_clamped :
    (calculate_derived_values { baseChar with staerke := some (-5) }).staerke =
      some (-5) ∧ ((-5 : Int) < 1) := by
  decide

/-- C6 (amended): the first step of `calculate_derived_values` replaces
each null or zero base attribute by `1` and keeps every other stored value
unchanged (`pyOr1`); consequently the four attributes end up at least 1
whenever every stored value is non-negative, but a negative stored value
survives below 1. -/
theorem c6_clamp_amended (c : Character)
    (hs : ∀ x, c.staerke = some x → 0 ≤ x)
    (hd : ∀ x, c.geschicklichkeit = some x → 0 ≤ x)
    (hp : ∀ x, c.wahrnehmung = some x → 0 ≤ x)
    (hw : ∀ x, c.willenskraft = some x → 0 ≤ x) :
    (calculate_derived_values c).staerke = some (pyOr1 c.staerke) ∧
    (calculate_derived_values c).geschicklichkeit = some (pyOr1 c.geschicklichkeit) ∧
    (calculate_derived_values c).wahrnehmung = some (pyOr1 c.wahrnehmung) ∧
    (calculate_derived_values c).willenskraft = some (pyOr1 c.willenskraft) ∧
    1 ≤ pyOr1 c.staerke ∧ 1 ≤ pyOr1 c.geschicklichkeit ∧
    1 ≤ pyOr1 c.wahrnehmung ∧ 1 ≤ pyOr1 c.willenskraft :=
  ⟨rfl, rfl, rfl, rfl, pyOr1_one_le _ hs, pyOr1_one_le _ hd,
    pyOr1_one_le _ hp, pyOr1_one_le _ hw⟩

/-- C6 amended witness: a zero strength is replaced by 1 and all four
attributes of a concrete character end up at least 1. -/
theorem c6_clamp_amended_witness :
    (calculate_derived_values { baseChar with staerke := some 0 }).staerke =
      some (pyOr1 (some 0)) ∧
    1 ≤ pyOr1 ({ baseChar with staerke := some 0 } : Character).staerke := by
  have h := c6_clamp_amended { baseChar with staerke := some 0 }
    (by intro x hx; simp [baseChar] at hx; omega)
    (by intro x hx; simp [baseChar] at hx; omega)
    (by intro x hx; simp [baseChar] at hx; omega)
    (by intro x hx; simp [baseChar] at hx; omega)
  exact ⟨h.1, h.2.2.2.2.1⟩

/-- C7: after `calculate_derived_values`, a null current stress is
initialized to 0, and a set current stress `v` becomes
`min v (willpower * 3)` where the willpower has already gone through the
`or 1` replacement. -/
theorem c7_stress_update (c : Character) :
    (c.aktueller_stress = none →
      (calculate_derived_values c).aktueller_stress = some 0) ∧
    (∀ v : Int, c.aktueller_stress = some v →
      (calculate_derived_values c).aktueller_stress =
        some (min v (maxStressOf c))) := by
  constructor
  · intro h
    simp [calculate_derived_values, h]
  · intro v h
    simp only [calculate_derived_values, h, Option.some.injEq]
    rw [min_def]
    split_ifs <;> omega

/-- C7 witness: with current stress unset and willpower 4, the stress
maximum is 12 and current stress initializes to 0, not to the maximum. -/
theorem c7_stress_update_witness :
    (calculate_derived_values
      { baseChar with willenskraft := some 4 }).aktueller_stress = some 0 ∧
    maxStressOf { baseChar with willenskraft := some 4 } = 12 :=
  ⟨(c7_stress_update { baseChar with willenskraft := some 4 }).1 rfl, by decide⟩

/-- C9: `calculate_derived_values` only touches the four base attributes,
`leben`, `aktuelles_leben` and `aktueller_stress`; every other column of
the row — in particular the stored `stress` column, `name`, `zustaende`,
`effekte`, `image_data` and `image_filename` — is unchanged (the stress
maximum is a local value that is never written to the `stress` column). -/
theorem c9_frame (c : Character) :
    (calculate_derived_values c).id = c.id ∧
    (calculate_derived_values c).user_id = c.user_id ∧
    (calculate_derived_values c).name = c.name ∧
    (calculate_derived_values c).stress = c.stress ∧
    (calculate_derived_values c).zustaende = c.zustaende ∧
    (calculate_derived_values c).effekte = c.effekte ∧
    (calculate_derived_values c).image_data = c.image_data ∧
    (calculate_derived_values c).image_filename = c.image_filename ∧
    (calculate_derived_values c).created_at = c.created_at ∧
    (calculate_derived_values c).updated_at = c.updated_at :=
  ⟨rfl, rfl, rfl, rfl, rfl, rfl, rfl, rfl, rfl, rfl⟩

-- Helper lemmas about the message store

theorem roomMsgs_filter (s : Store) (n : Nat) (p : Msg → Bool) (r : Nat) :
    roomMsgs ⟨s.msgs.filter p, n⟩ r = (roomMsgs s r).filter p := by
  unfold roomMsgs
  simp [List.filter_filter, Bool.and_comm]

theorem sortByTs_perm (l : List Msg) : List.Perm (sortByTs l) l :=
  List.perm_insertionSort msgLE l

theorem sortByTs_length (l : List Msg) : (sortByTs l).length = l.length :=
  (sortByTs_perm l).length_eq

theorem filter_not_take_perm (l ls : List Msg) (k : Nat)
    (hnd : (l.map Msg.id).Nodup) (hperm : List.Perm ls l) :
    List.Perm (l.filter (fun m => decide (m.id ∉ (ls.take k).map Msg.id))) (ls.drop k) := by
  have hnd' : (ls.map Msg.id).Nodup := ((hperm.map Msg.id).nodup_iff).2 hnd
  have hsplit : ls.map Msg.id = (ls.take k).map Msg.id ++ (ls.drop k).map Msg.id := by
    rw [← List.map_append, List.take_append_drop]
  have hdisj : List.Disjoint ((ls.take k).map Msg.id) ((ls.drop k).map Msg.id) :=
    List.disjoint_of_nodup_append (hsplit ▸ hnd')
  set ids := (ls.take k).map Msg.id with hids
  have h1 : (ls.take k).filter (fun m => decide (m.id ∉ ids)) = [] := by
    apply List.filter_eq_nil_iff.2
    intro m hm
    simp only [decide_eq_true_eq, Decidable.not_not]
    exact List.mem_map_of_mem Msg.id hm
  have h2 : (ls.drop k).filter (fun m => decide (m.id ∉ ids)) = ls.drop k := by
    apply List.filter_eq_self.2
    intro m hm
    simp only [decide_eq_true_eq]
    intro hmem
    exact hdisj hmem (List.mem_map_of_mem Msg.id hm)
  have hls : ls.filter (fun m => decide (m.id ∉ ids)) = ls.drop k := by
    conv_lhs => rw [← List.take_append_drop k ls]
    rw [List.filter_append, h1, h2, List.nil_append]
  exact hls ▸ (hperm.filter _).symm

theorem nodup_room_ids (s : Store) (r : Nat) (hnd : (s.msgs.map Msg.id).Nodup) :
    ((roomMsgs s r).map Msg.id).Nodup :=
  hnd.sublist ((List.filter_sublist s.msgs).map Msg.id)

theorem evictOld_room_perm (s : Store) (r : Nat) (hnd : (s.msgs.map Msg.id).Nodup) :
    List.Perm (roomMsgs (evictOld s r) r)
      ((sortByTs (roomMsgs s r)).drop ((roomMsgs s r).length - 200)) := by
  unfold evictOld
  by_cases h : 200 < (roomMsgs s r).length
  · simp only [h, if_true]
    rw [roomMsgs_filter]
    exact filter_not_take_perm (roomMsgs s r) (sortByTs (roomMsgs s r)) _
      (nodup_room_ids s r hnd) (sortByTs_perm _)
  · simp only [h, if_false]
    have hk : (roomMsgs s r).length - 200 = 0 := by omega
    rw [hk, List.drop_zero]
    exact (sortByTs_perm _).symm

theorem evictOld_room_len (s : Store) (r : Nat) (hnd : (s.msgs.map Msg.id).Nodup) :
    (roomMsgs (evictOld s r) r).length = min (roomMsgs s r).length 200 := by
  have h := (evictOld_room_perm s r hnd).length_eq
  rw [h, List.length_drop, sortByTs_length]
  omega

theorem WF_addMsg (s : Store) (m : Msg) (hWF : WF s) (hid : m.id = s.nextId) :
    WF (addMsg s m) := by
  obtain ⟨hlt, hnd⟩ := hWF
  constructor
  · intro x hx
    simp only [addMsg, List.mem_append, List.mem_singleton] at hx
    rcases hx with hx | rfl
    · have := hlt x hx
      simp only [addMsg]
      omega
    · simp [addMsg, hid]
  · simp only [addMsg, List.map_append, List.map_cons, List.map_nil]
    rw [List.nodup_append]
    refine ⟨hnd, List.nodup_singleton _, ?_⟩
    intro a ha hb
    simp only [List.mem_singleton] at hb
    subst hb
    obtain ⟨y, hy, hyid⟩ := List.mem_map.1 ha
    have := hlt y hy
    omega

theorem WF_evictOld (s : Store) (r : Nat) (hWF : WF s) : WF (evictOld s r) := by
  obtain ⟨hlt, hnd⟩ := hWF
  unfold evictOld
  by_cases h : 200 < (roomMsgs s r).length
  · simp only [h, if_true]
    constructor
    · intro x hx
      exact hlt x (List.mem_of_mem_filter hx)
    · exact hnd.sublist ((List.filter_sublist _).map Msg.id)
  · simp only [h, if_false]
    exact ⟨hlt, hnd⟩

theorem WF_sendMessageCore (s : Store) (r u : Nat) (text : String) (t : Nat)
    (mtype : String) (mdata : Option String) (hWF : WF s) :
    WF (sendMessageCore s r u text t mtype mdata) :=
  WF_evictOld _ r (WF_addMsg s _ hWF rfl)

theorem evictOld_msgs_subset (s : Store) (r : Nat) :
    (evictOld s r).msgs ⊆ s.msgs := by
  unfold evictOld
  by_cases h : 200 < (roomMsgs s r).length
  · simp only [h, if_true]
    exact List.filter_subset' _
  · simp only [h, if_false]
    exact fun x hx => hx

/-- C2: any message insert through the shared insert-then-sweep path (text,
dice or character share) leaves the room with `min currentCount 200`
messages, where `currentCount` is the post-insert count; when the count
exceeded 200, the survivors are exactly the messages left after dropping
the `currentCount - 200` globally oldest (by timestamp, ties by ascending
primary key) room messages, i.e. the 200 most recent. -/
theorem c2_retention (s : Store) (r u : Nat) (text : String) (t : Nat)
    (mtype : String) (mdata : Option String) (hWF : WF s) :
    (roomMsgs (sendMessageCore s r u text t mtype mdata) r).length =
      min (roomMsgs (addMsg s (newMsg s r u text t mtype mdata)) r).length 200 ∧
    List.Perm (roomMsgs (sendMessageCore s r u text t mtype mdata) r)
      ((sortByTs (roomMsgs (addMsg s (newMsg s r u text t mtype mdata)) r)).drop
        ((roomMsgs (addMsg s (newMsg s r u text t mtype mdata)) r).length - 200)) := by
  have hWF1 := WF_addMsg s (newMsg s r u text t mtype mdata) hWF rfl
  exact ⟨evictOld_room_len _ r hWF1.2, evictOld_room_perm _ r hWF1.2⟩

/-- C2 witness: sending into an empty well-formed store leaves one
message in the room. -/
theorem c2_retention_witness :
    WF ⟨[], 0⟩ ∧
    (roomMsgs (sendMessageCore ⟨[], 0⟩ 1 1 "hi" 0 "text" none) 1).length = 1 := by
  have hWF : WF (⟨[], 0⟩ : Store) := ⟨by simp, by simp⟩
  have h := (c2_retention ⟨[], 0⟩ 1 1 "hi" 0 "text" none hWF).1
  refine ⟨hWF, ?_⟩
  rw [h]
  decide

set_option maxRecDepth 4000 in
theorem newMsg_survives (s : Store) (m : Msg) (r : Nat) (hWF : WF s)
    (hid : m.id = s.nextId) (hts : ∀ x ∈ s.msgs, x.timestamp ≤ m.timestamp) :
    m ∈ (evictOld (addMsg s m) r).msgs := by
  have hmem : m ∈ (addMsg s m).msgs := by simp [addMsg]
  have hWF1 : WF (addMsg s m) := WF_addMsg s m hWF hid
  unfold evictOld
  by_cases h : 200 < (roomMsgs (addMsg s m) r).length
  case neg =>
    simp only [h, if_false]
    exact hmem
  case pos =>
    simp only [h, if_true]
    rw [List.mem_filter]
    refine ⟨hmem, ?_⟩
    simp only [decide_eq_true_eq]
    intro hin
    obtain ⟨o, ho, hoid⟩ := List.mem_map.1 hin
    have hndroom : ((roomMsgs (addMsg s m) r).map Msg.id).Nodup :=
      nodup_room_ids _ r hWF1.2
    have hndsorted : ((sortByTs (roomMsgs (addMsg s m) r)).map Msg.id).Nodup :=
      (((sortByTs_perm _).map Msg.id).nodup_iff).2 hndroom
    have hosorted : o ∈ sortByTs (roomMsgs (addMsg s m) r) :=
      List.take_subset _ _ ho
    have horoom : o ∈ roomMsgs (addMsg s m) r :=
      ((sortByTs_perm _).mem_iff).1 hosorted
    have hos1 : o ∈ (addMsg s m).msgs := List.mem_of_mem_filter horoom
    have hsplit : o ∈ s.msgs ∨ o = m := by simpa [addMsg] using hos1
    have ho_eq : o = m := by
      rcases hsplit with hx | hx
      · exfalso
        have h1 := hWF.1 o hx
        omega
      · exact hx
    rw [ho_eq] at ho
    have hlen : (sortByTs (roomMsgs (addMsg s m) r)).length =
        (roomMsgs (addMsg s m) r).length := sortByTs_length _
    have hdroplen : ((sortByTs (roomMsgs (addMsg s m) r)).drop
        ((roomMsgs (addMsg s m) r).length - 200)).length = 200 := by
      rw [List.length_drop, hlen]
      omega
    have hdropne : (sortByTs (roomMsgs (addMsg s m) r)).drop
        ((roomMsgs (addMsg s m) r).length - 200) ≠ [] := by
      intro hnil
      rw [hnil] at hdroplen
      simp at hdroplen
    obtain ⟨b, hb⟩ := List.exists_mem_of_ne_nil _ hdropne
    have hpair : List.Pairwise msgLE (sortByTs (roomMsgs (addMsg s m) r)) :=
      List.sorted_insertionSort msgLE _
    rw [← List.take_append_drop ((roomMsgs (addMsg s m) r).length - 200)
      (sortByTs (roomMsgs (addMsg s m) r))] at hpair
    have hmb : msgLE m b := (List.pairwise_append.1 hpair).2.2 m ho b hb
    have hbsorted : b ∈ sortByTs (roomMsgs (addMsg s m) r) :=
      List.drop_subset _ _ hb
    have hbroom : b ∈ roomMsgs (addMsg s m) r :=
      ((sortByTs_perm _).mem_iff).1 hbsorted
    have hbs1 : b ∈ (addMsg s m).msgs := List.mem_of_mem_filter hbroom
    have hbsplit : b ∈ s.msgs ∨ b = m := by simpa [addMsg] using hbs1
    rcases hbsplit with hbx | hbx
    · have hbt := hts b hbx
      have hbid := hWF.1 b hbx
      unfold msgLE at hmb
      omega
    · rw [hbx] at hb
      have hmds : (sortByTs (roomMsgs (addMsg s m) r)).map Msg.id =
          ((sortByTs (roomMsgs (addMsg s m) r)).take
            ((roomMsgs (addMsg s m) r).length - 200)).map Msg.id ++
          ((sortByTs (roomMsgs (addMsg s m) r)).drop
            ((roomMsgs (addMsg s m) r).length - 200)).map Msg.id := by
        rw [← List.map_append, List.take_append_drop]
      rw [hmds] at hndsorted
      exact List.disjoint_of_nodup_append hndsorted
        (List.mem_map_of_mem Msg.id ho) (List.mem_map_of_mem Msg.id hb)

/-- C10: for a text send to an existing, accessible room, a message that is
empty after stripping or longer than 3000 characters is rejected with the
store unchanged (no insert, no eviction); otherwise the request succeeds
and exactly one new record — the sent message — is added (every stored
message is either the new one or was already present, and the new one is
present). -/
theorem c10_text_validation (s : Store) (r u : Nat) (raw : String) (t : Nat)
    (hWF : WF s) (hts : ∀ x ∈ s.msgs, x.timestamp ≤ t) :
    ((pyStrip raw).data.isEmpty = true →
      api_send_message true true s r u raw t = ⟨s, false⟩) ∧
    (3000 < (pyStrip raw).data.length →
      api_send_message true true s r u raw t = ⟨s, false⟩) ∧
    ((pyStrip raw).data.isEmpty = false → (pyStrip raw).data.length ≤ 3000 →
      (api_send_message true true s r u raw t).success = true ∧
      newMsg s r u (pyStrip raw) t "text" none ∈
        (api_send_message true true s r u raw t).store.msgs ∧
      ∀ m ∈ (api_send_message true true s r u raw t).store.msgs,
        m = newMsg s r u (pyStrip raw) t "text" none ∨ m ∈ s.msgs) := by
  refine ⟨?_, ?_, ?_⟩
  · intro h
    simp [api_send_message, h]
  · intro h
    by_cases he : (pyStrip raw).data.isEmpty <;>
      simp [api_send_message, he, h] <;>
      exact h
  · intro he hlen
    have hlen2 : (pyStrip raw).length ≤ 3000 := hlen
    have hres : api_send_message true true s r u raw t =
        ⟨sendMessageCore s r u (pyStrip raw) t "text" none, true⟩ := by
      simp [api_send_message, he, Nat.not_lt.2 hlen2]
    rw [hres]
    refine ⟨rfl, ?_, ?_⟩
    · exact newMsg_survives s (newMsg s r u (pyStrip raw) t "text" none) r hWF rfl
        (fun x hx => hts x hx)
    · intro m hm
      have hm1 : m ∈ (addMsg s (newMsg s r u (pyStrip raw) t "text" none)).msgs :=
        evictOld_msgs_subset _ r hm
      have : m ∈ s.msgs ∨ m = newMsg s r u (pyStrip raw) t "text" none := by
        simpa [addMsg] using hm1
      exact this.symm

/-- C10 witness: sending text with surrounding whitespace into an empty
store succeeds and stores exactly the one stripped message. -/
theorem c10_text_validation_witness :
    WF ⟨[], 0⟩ ∧
    (api_send_message true true ⟨[], 0⟩ 1 1 " hi " 0).success = true ∧
    newMsg ⟨[], 0⟩ 1 1 (pyStrip " hi ") 0 "text" none ∈
      (api_send_message true true ⟨[], 0⟩ 1 1 " hi " 0).store.msgs := by
  have hWF : WF (⟨[], 0⟩ : Store) := ⟨by simp, by simp⟩
  have h := (c10_text_validation ⟨[], 0⟩ 1 1 " hi " 0 hWF (by simp)).2.2
    (by decide) (by decide)
  exact ⟨hWF, h.1, h.2.1⟩

set_option maxRecDepth 10000 in
/-- C8 counterexample: eviction is not best-effort housekeeping.  With a
room already at 200 messages, a send whose sweep cannot delete the oldest
message (id 0) ends in the `except` handler: the operation fails and the
rollback discards the new message, leaving the store unchanged — the
insert is not committed and the send does not succeed. -/
theorem c8_eviction_failure_not_best_effort :
    (api_send_message_try (fun i => i == 0) true true store200 1 1 "hello" 300).success
        = false ∧
    (api_send_message_try (fun i => i == 0) true true store200 1 1 "hello" 300).store
        = store200 := by
  decide

/-- C8 (amended): a failure to evict rolls back the triggering insert.
Whenever the sweep cannot delete one of the old messages it selected, the
send returns an error and the store is exactly the pre-send store: the new
message is not committed. -/
theorem c8_rollback (df : Nat → Bool) (s : Store) (r u : Nat) (raw : String)
    (t : Nat) (he : (pyStrip raw).data.isEmpty = false)
    (hlen : (pyStrip raw).data.length ≤ 3000)
    (hfail : evictOldTry df
      (addMsg s (newMsg s r u (pyStrip raw) t "text" none)) r = none) :
    api_send_message_try df true true s r u raw t = ⟨s, false⟩ := by
  have hlen2 : (pyStrip raw).length ≤ 3000 := hlen
  simp [api_send_message_try, he, Nat.not_lt.2 hlen2, hfail]

set_option maxRecDepth 10000 in
/-- C8 amended witness: the concrete failing sweep rolls back to the
original 200-message store with a failed result. -/
theorem c8_rollback_witness :
    (pyStrip "hello").data.isEmpty = false ∧
    api_send_message_try (fun i => i == 0) true true store200 1 1 "hello" 300 =
      ⟨store200, false⟩ :=
  ⟨by decide,
    c8_rollback (fun i => i == 0) store200 1 1 "hello" 300 (by decide) (by decide)
      (by decide)⟩

theorem roomMsgs_all (L : List Nat) (n r u : Nat) (txt : Nat → String)
    (ts : Nat → Nat) :
    roomMsgs ⟨L.map (seqMsg r u txt ts), n⟩ r = L.map (seqMsg r u txt ts) := by
  unfold roomMsgs
  apply List.filter_eq_self.2
  intro x hx
  obtain ⟨i, hi, rfl⟩ := List.mem_map.1 hx
  simp [seqMsg]

theorem seq_pairwise (a c r u : Nat) (txt : Nat → String) (ts : Nat → Nat)
    (mono : ∀ i j, i ≤ j → ts i ≤ ts j) :
    List.Pairwise msgLE ((List.range' a c).map (seqMsg r u txt ts)) := by
  rw [List.pairwise_map]
  apply (List.pairwise_lt_range' a c).imp
  intro i j hij
  have h1 := mono i j (Nat.le_of_lt hij)
  unfold msgLE seqMsg
  dsimp only
  omega

theorem insertSeqG_spec (r u : Nat) (txt : Nat → String) (ts : Nat → Nat)
    (mono : ∀ i j, i ≤ j → ts i ≤ ts j) (n : Nat) :
    insertSeqG r u txt ts n =
      ⟨(List.range' (n - min n 200) (min n 200)).map (seqMsg r u txt ts), n⟩ := by
  induction n with
  | zero => rfl
  | succ n ih =>
    have hmin : min n 200 ≤ n := Nat.min_le_left n 200
    have hak : (n - min n 200) + min n 200 = n := by omega
    show sendMessageCore (insertSeqG r u txt ts n) r u (txt n) (ts n) "text" none = _
    rw [ih]
    unfold sendMessageCore addMsg newMsg
    dsimp only
    have hlist : (List.range' (n - min n 200) (min n 200)).map (seqMsg r u txt ts) ++
        [(⟨n, r, u, txt n, ts n, "text", none⟩ : Msg)] =
        (List.range' (n - min n 200) (min n 200 + 1)).map (seqMsg r u txt ts) := by
      rw [List.range'_1_concat, List.map_append, hak]
      simp [seqMsg]
    rw [hlist]
    unfold evictOld
    rw [roomMsgs_all]
    simp only [List.length_map, List.length_range']
    by_cases hcase : 200 < min n 200 + 1
    · rw [if_pos hcase]
      have hk200 : min n 200 = 200 := by omega
      have hn200 : 200 ≤ n := by omega
      have hsorted : sortByTs ((List.range' (n - min n 200) (min n 200 + 1)).map
          (seqMsg r u txt ts)) =
          (List.range' (n - min n 200) (min n 200 + 1)).map (seqMsg r u txt ts) :=
        List.Sorted.insertionSort_eq
          (seq_pairwise (n - min n 200) (min n 200 + 1) r u txt ts mono)
    
      rw [hsorted, hk200]
      have htake1 : (200 : Nat) + 1 - 200 = 1 := by omega
      rw [htake1]
      have hsplit : List.range' (n - 200) (200 + 1) =
          (n - 200) :: List.range' (n - 200 + 1) 200 := List.range'_succ _ _ _
      rw [hsplit, List.map_cons]
      rw [List.take_succ_cons, List.take_zero]
      have hfilter :
          ((seqMsg r u txt ts (n - 200) ::
              (List.range' (n - 200 + 1) 200).map (seqMsg r u txt ts)).filter
            (fun m => decide (m.id ∉ ([seqMsg r u txt ts (n - 200)].map Msg.id)))) =
          (List.range' (n - 200 + 1) 200).map (seqMsg r u txt ts) := by
        rw [List.filter_cons]
        have hhead : (decide ((seqMsg r u txt ts (n - 200)).id ∉
            ([seqMsg r u txt ts (n - 200)].map Msg.id))) = false := by
          simp [seqMsg]
        rw [hhead]
        simp only [Bool.false_eq_true, if_false]
        apply List.filter_eq_self.2
        intro x hx
        obtain ⟨i, hi, rfl⟩ := List.mem_map.1 hx
        have hib := List.mem_range'_1.1 hi
        simp only [seqMsg, List.map_cons, List.map_nil, List.mem_singleton,
          decide_eq_true_eq]
        omega
      rw [hfilter]
      have h1 : min (n + 1) 200 = 200 := by omega
      have h2 : n + 1 - 200 = n - 200 + 1 := by omega
      rw [h1, h2]
    · rw [if_neg hcase]
      have h1 : min (n + 1) 200 = min n 200 + 1 := by omega
      have h2 : n + 1 - (min n 200 + 1) = n - min n 200 := by omega
      rw [h1, h2]

/-- C5: after `n` sequential successful inserts into one room of an
initially empty store (timestamps non-decreasing, as with `utcnow`), the
room holds `min n 200` messages, and they are exactly the most recent
inserts `n - min n 200, …, n - 1` (0-based), i.e. inserts `n-200+1 … n`
(1-based) once `n` exceeds 200. -/
theorem c5_sequential_cap (r u : Nat) (txt : Nat → String) (ts : Nat → Nat)
    (mono : ∀ i j, i ≤ j → ts i ≤ ts j) (n : Nat) :
    (roomMsgs (insertSeqG r u txt ts n) r).length = min n 200 ∧
    roomMsgs (insertSeqG r u txt ts n) r =
      (List.range' (n - min n 200) (min n 200)).map (seqMsg r u txt ts) := by
  have h := insertSeqG_spec r u txt ts mono n
  rw [h, roomMsgs_all]
  exact ⟨by simp, rfl⟩

/-- C5 witness: 205 sequential text inserts leave exactly 200 stored
messages — inserts 5 … 204 (0-based) — so the 5 oldest are gone. -/
theorem c5_sequential_cap_witness :
    (roomMsgs (insertSeqG 1 1 (fun _ => "m") (fun i => i) 205) 1).length = 200 ∧
    roomMsgs (insertSeqG 1 1 (fun _ => "m") (fun i => i) 205) 1 =
      (List.range' 5 200).map (seqMsg 1 1 (fun _ => "m") (fun i => i)) := by
  have h := c5_sequential_cap 1 1 (fun _ => "m") (fun i => i)
    (fun i j hij => hij) 205
  have hm : (205 : Nat) ⊓ 200 = 200 := by omega
  have hs : (205 : Nat) - 200 = 5 := by omega
  constructor
  · rw [h.1, hm]
  · rw [h.2, hm, hs]
